import Mathlib

/-!
Verification of the pipeline controller of `circlator/tasks/all.py` (the
`circlator all` task).

The controller's post-argparse body (lines 81-294 of the source) is embedded
shallowly:

* the merge-log classification loop (source lines 225-239) becomes the
  recursive function `classifyLines` over the log's lines;
* the whole controller run becomes the function `run` from an `Options`
  record (the parsed command-line options the body reads) and a `World`
  record (the outcomes of the external collaborators: stage success flags,
  the content the Merger leaves in the circularise log, and the sequence
  counts reported by `pyfastaq.tasks.count_sequences`) to a `RunTrace`
  (stage invocations in order, files written by the controller itself,
  messages echoed, terminal outcome).

String primitives used by the classification loop (Python's `str.rstrip`,
`str.split('\t')`, `str.startswith`) are implemented structurally over
`String.data` so that every definition evaluates inside the kernel.
-/

/-- Python `str.rstrip()`: drop trailing whitespace characters. -/
def rstrip (s : String) : String :=
  ⟨(s.data.reverse.dropWhile Char.isWhitespace).reverse⟩

/-- Auxiliary for `tabSplit`: accumulate the current field (reversed). -/
def splitTabAux : List Char → List Char → List (List Char)
  | [], acc => [acc.reverse]
  | c :: cs, acc =>
      if c = '\t' then acc.reverse :: splitTabAux cs []
      else splitTabAux cs (c :: acc)

/-- Python `str.split('\t')`: split on every tab, keeping empty fields
(`n` tabs give `n+1` fields; the empty string gives one empty field). -/
def tabSplit (s : String) : List String :=
  (splitTabAux s.data []).map fun l => ⟨l⟩

/-- The tag that marks a line of the circularise log as a record line
(source line 230: `line.startswith('[merge circularised]\t')`). -/
def mergeTag : String := "[merge circularised]\t"

/-- Python `line.startswith(mergeTag)`. -/
def hasMergeTag (line : String) : Bool :=
  mergeTag.data.isPrefixOf line.data

/-- The exact header line of the circularise log (source line 232 builds it
with `'\t'.join([...])`). -/
def mergeLogHeader : String :=
  String.intercalate "\t"
    ["[merge circularised]", "#Contig", "repetitive_deleted",
     "circl_using_nucmer", "circl_using_spades", "circularised"]

/-- Python's six-way tuple unpacking
`x, name, u, y, z, circularised = fields` (source line 235): succeeds
exactly when there are six fields, and of those the loop uses the name
(second) and the circularised flag (sixth). -/
def matchSix (fields : List String) : Option (String × String) :=
  match fields with
  | [_x, name, _u, _y, _z, circularised] => some (name, circularised)
  | _ => none

/-- The classification loop of source lines 226-239, over the lines of
`04.merge.circularise.log`.  A line without the record tag is skipped; the
exact header line is skipped; any other tagged line is tab-split and must
have exactly six fields (Python's tuple unpacking raises `ValueError`
otherwise, modelled as `.error`); the contig name (second field) goes to
`contigs_to_keep` when the sixth field is the literal `"1"`, else to
`contigs_to_not_fix_start`. -/
def classifyLines : List String → Except String (List String × List String)
  | [] => .ok ([], [])
  | line :: rest =>
      if ¬ hasMergeTag line then classifyLines rest
      else if rstrip line = mergeLogHeader then classifyLines rest
      else
        match matchSix (tabSplit (rstrip line)) with
        | some (name, circularised) =>
            match classifyLines rest with
            | .ok (keep, nfs) =>
                if circularised = "1" then .ok (name :: keep, nfs)
                else .ok (keep, name :: nfs)
            | .error e => .error e
        | none => .error "ValueError: tuple unpacking"

/-- The whole CLASSIFY step including opening the log file (source line 228):
a missing log file raises `FileNotFoundError`. -/
def classifyStep : Option (List String) → Except String (List String × List String)
  | none => .error "FileNotFoundError"
  | some lines => classifyLines lines

/-- A line of the log that the loop treats as a data record: it carries the
tag and is not the exact header line. -/
def isRecordLine (line : String) : Bool :=
  hasMergeTag line && ¬ (rstrip line = mergeLogHeader)

/-- The names appearing on the data record lines of a log (second field of
each six-field record line; non-record and malformed lines contribute
nothing). -/
def dataNames : List String → List String
  | [] => []
  | line :: rest =>
      if ¬ hasMergeTag line then dataNames rest
      else if rstrip line = mergeLogHeader then dataNames rest
      else
        match matchSix (tabSplit (rstrip line)) with
        | some (name, _c) => name :: dataNames rest
        | none => dataNames rest

/-- The names the loop sends to `contigs_to_keep` (circularised flag
`"1"`), when no line makes it abort. -/
def keepOf : List String → List String
  | [] => []
  | line :: rest =>
      if ¬ hasMergeTag line then keepOf rest
      else if rstrip line = mergeLogHeader then keepOf rest
      else
        match matchSix (tabSplit (rstrip line)) with
        | some (name, c) => if c = "1" then name :: keepOf rest else keepOf rest
        | none => keepOf rest

/-- The names the loop sends to `contigs_to_not_fix_start` (circularised
flag other than `"1"`), when no line makes it abort. -/
def nfOf : List String → List String
  | [] => []
  | line :: rest =>
      if ¬ hasMergeTag line then nfOf rest
      else if rstrip line = mergeLogHeader then nfOf rest
      else
        match matchSix (tabSplit (rstrip line)) with
        | some (name, c) => if c = "1" then nfOf rest else name :: nfOf rest
        | none => nfOf rest

/-- A line on which the loop raises `ValueError`: it is treated as a data
record (tagged, not the exact header) but does not tab-split into exactly
six fields. -/
def isBadLine (line : String) : Bool :=
  isRecordLine line && (matchSix (tabSplit (rstrip line))).isNone

/-- True when the path string is absolute (starts with `/`). -/
def isAbsolutePath (p : String) : Bool :=
  match p.data with
  | c :: _ => c = '/'
  | [] => false

/-- Model of `os.path.abspath` as called by the controller: a relative path
is resolved against the process working directory (normalization of `..`
segments is not modelled; no input the controller builds needs it). -/
def abspath (cwd p : String) : String :=
  if isAbsolutePath p then p else cwd ++ "/" ++ p

/-- Model of `os.path.join` for one directory and one relative name. -/
def joinPath (dir name : String) : String := dir ++ "/" ++ name

/-- The command-line options the embedded body of `run` reads.  The many
per-stage numeric/string tunables (threads, bwa options, nucmer tolerances,
kmer lists, ...) are passed opaquely to collaborators and never branch the
controller, so they are not modelled. -/
structure Options where
  force : Bool
  verbose : Bool
  unchanged_code : Int
  assemble_not_only_assembler : Bool
  no_pair_merge : Bool
  b2r_only_contigs : Option String
  genes_fa : Option String
  assembly : String
  reads : String
  outdir : String
deriving DecidableEq

/-- The external world the controller interacts with: the initial working
directory, whether the output directory pre-exists (and with which entries),
whether the input files exist, the success of each external collaborator
call, the content the Merger leaves in `04.merge.circularise.log` (`none`
models a missing file), and the two sequence counts that
`pyfastaq.tasks.count_sequences` reports at summary time. -/
structure World where
  cwd0 : String
  outdirPre : Option (List String)
  versionsOk : Bool
  inputFilesExist : Bool
  toFastaOk : Bool
  mapreadsOk : Bool
  bam2readsOk : Bool
  assembleOk : Bool
  filterOk : Bool
  mergeOk : Bool
  cleanOk : Bool
  fixstartOk : Bool
  mergeLog : Option (List String)
  countInput : Nat
  countFinal : Nat
deriving DecidableEq

/-- One collaborator invocation, with the arguments the claims are about
(paths are recorded exactly as the controller passes them: absolute for
resolved user inputs, relative artifact names otherwise, interpreted
against the output directory after `os.chdir`). -/
inductive Event where
  | to_fasta (infile outfile : String)
  | mapreads (ref reads bam : String)
  | bam2reads (bam outPre : String) (fastq_out : Bool) (contigs_to_use : Option String)
  | assemble (reads dir : String) (only_assembler : Bool)
  | filter_assembly (infile outfile ids_file : String)
  | merge (ref reassemblyDir outPre : String) (reads : Option String)
  | clean (fasta outPre keepfile : String)
  | fixstart (fasta outPre ignore : String) (genes_fa : Option String)
deriving DecidableEq

/-- How the process ends: a normal `sys.exit`/fall-through with an exit
code, or an uncaught exception (which the interpreter turns into a
non-zero exit). -/
inductive Outcome where
  | exited (code : Int)
  | raised (msg : String)
deriving DecidableEq

/-- The observable trace of one controller run: collaborator invocations in
order, files the controller itself wrote (absolute path and content, in
order), messages echoed to stdout, the output directory's entries right
after INIT (`none` if INIT failed), and the terminal outcome. -/
structure RunTrace where
  events : List Event
  files : List (String × String)
  echoed : List String
  dirStart : Option (List String)
  outcome : Outcome
deriving DecidableEq

/-- Source lines 97-104: `os.mkdir(outdir)`; on `FileExistsError`, force
means `shutil.rmtree` then `os.mkdir` (a fresh empty directory), otherwise
the error is re-raised.  The result is the directory's entry list after
INIT.  (The generic `except Exception → sys.exit(1)` arm for non-exists
mkdir failures is not modelled: it needs an OS fault unrelated to the
claims.) -/
def initOutdir : Option (List String) → Bool → Except String (List String)
  | none, _ => .ok []
  | some _, true => .ok []
  | some _, false => .error "FileExistsError"

/-- Source lines 13-15: `print_message` emits its message only when
`--verbose` is set; returns the emitted lines. -/
def print_message (m : String) (verbose : Bool) : List String :=
  if verbose then [m] else []

/-- Python `'{:_^79}'.format(s)`: center `s` in 79 columns, padding with
underscores, the extra column (odd padding) going to the right. -/
def center79 (s : String) : String :=
  let pad := 79 - s.length
  let left := pad / 2
  (⟨List.replicate left '_'⟩ : String) ++ s ++ (⟨List.replicate (pad - left) '_'⟩ : String)

/-- Source lines 241-249: the body written for a contig-name list file:
`print('\n'.join(names), file=f)` when the list is non-empty (so a trailing
newline), nothing at all when it is empty (the file is still created). -/
def list_file_content (names : List String) : String :=
  if 0 < names.length then String.intercalate "\n" names ++ "\n" else ""

/-- The controller from the merge stage onward (source lines 190-294),
factored out so the two arms of the assembly-filter branch share it.
`assembly_to_use` is the merge reference chosen by lines 182-187. -/
def runFromMerge (opts : Options) (w : World) (outdirAbs : String)
    (dir0 : List String) (files0 : List (String × String)) (ech : List String)
    (evs : List Event) (assembly_to_use filtered_reads : String) : RunTrace :=
  let ech5 := ech ++ print_message (center79 " Running merge ") opts.verbose
  let merge_reads := if opts.no_pair_merge then none else some filtered_reads
  let ev5 := evs ++ [Event.merge assembly_to_use "03.assemble" "04.merge" merge_reads]
  if w.mergeOk then
    match classifyStep w.mergeLog with
    | .error e => ⟨ev5, files0, ech5, some dir0, .raised e⟩
    | .ok (contigs_to_keep, contigs_to_not_fix_start) =>
      let files1 := files0 ++
        [(joinPath outdirAbs "05.clean.contigs_to_keep", list_file_content contigs_to_keep),
         (joinPath outdirAbs "06.fixstart.contigs_to_not_change", list_file_content contigs_to_not_fix_start)]
      let ech6 := ech5 ++ print_message (center79 " Running clean ") opts.verbose
      let ev6 := ev5 ++ [Event.clean "04.merge.fasta" "05.clean" "05.clean.contigs_to_keep"]
      if w.cleanOk then
        let ech7 := ech6 ++ print_message (center79 " Running fixstart ") opts.verbose
        let ev7 := ev6 ++ [Event.fixstart "05.clean.fasta" "06.fixstart"
          "06.fixstart.contigs_to_not_change" (opts.genes_fa.map (abspath w.cwd0))]
        if w.fixstartOk then
          let ech8 := ech7 ++ print_message (center79 " Summary ") opts.verbose
            ++ print_message ("Number of input contigs: " ++ toString w.countInput) opts.verbose
            ++ print_message ("Number of contigs after merging: " ++ toString w.countFinal) opts.verbose
            ++ print_message (String.intercalate " "
                 ["Circularized", toString contigs_to_keep.length, "of",
                  toString w.countFinal, "contig(s)"]) opts.verbose
          let files2 := files1 ++ [(joinPath outdirAbs "06.fixstart.ALL_FINISHED", "")]
          let code : Int :=
            if w.countInput = w.countFinal ∧ contigs_to_keep.length = 0
            then opts.unchanged_code else 0
          ⟨ev7, files2, ech8, some dir0, .exited code⟩
        else ⟨ev7, files1, ech7, some dir0, .raised "fixstart failed"⟩
      else ⟨ev6, files1, ech6, some dir0, .raised "clean failed"⟩
  else ⟨ev5, files0, ech5, some dir0, .raised "merge failed"⟩

/-- The embedded body of `run` (source lines 74-294, after option parsing):
version check, input-path resolution and existence check, output-directory
INIT and `os.chdir`, the provenance file, input-assembly normalization, the
six stages with the classify step between merge and clean, the summary and
the completion sentinel, and the final exit-code decision. -/
def run (opts : Options) (w : World) : RunTrace :=
  let ech0 := print_message (center79 " Checking external programs ") opts.verbose
  if w.versionsOk then
    let b2r_abs := opts.b2r_only_contigs.map (abspath w.cwd0)
    if w.inputFilesExist then
      let original_assembly := abspath w.cwd0 opts.assembly
      let original_reads := abspath w.cwd0 opts.reads
      match initOutdir w.outdirPre opts.force with
      | .error e => ⟨[], [], ech0, none, .raised e⟩
      | .ok dir0 =>
        let outdirAbs := abspath w.cwd0 opts.outdir
        let files0 := [(joinPath outdirAbs "00.info.txt", "<invocation and tool versions>")]
        let original_assembly_renamed := "00.input_assembly.fasta"
        let bam := "01.mapreads.bam"
        let filtered_reads :=
          "02.bam2reads" ++ (if opts.assemble_not_only_assembler then ".fastq" else ".fasta")
        let ev0 := [Event.to_fasta original_assembly original_assembly_renamed]
        if w.toFastaOk then
          let ech1 := ech0 ++ print_message (center79 " Running mapreads ") opts.verbose
          let ev1 := ev0 ++ [Event.mapreads original_assembly_renamed original_reads bam]
          if w.mapreadsOk then
            let ech2 := ech1 ++ print_message (center79 " Running bam2reads ") opts.verbose
            let ev2 := ev1 ++ [Event.bam2reads bam "02.bam2reads"
              opts.assemble_not_only_assembler b2r_abs]
            if w.bam2readsOk then
              let ech3 := ech2 ++ print_message (center79 " Running assemble ") opts.verbose
              let ev3 := ev2 ++ [Event.assemble filtered_reads "03.assemble"
                (!opts.assemble_not_only_assembler)]
              if w.assembleOk then
                match b2r_abs with
                | some idsAbs =>
                  let ech4 := ech3 ++ print_message
                    (center79 " --b2r_only_contigs used - filering contigs ") opts.verbose
                  let ev4 := ev3 ++ [Event.filter_assembly original_assembly_renamed
                    "04.merge.00.filtered_assembly.fa" idsAbs]
                  if w.filterOk then
                    runFromMerge opts w outdirAbs dir0 files0 ech4 ev4
                      "04.merge.00.filtered_assembly.fa" filtered_reads
                  else ⟨ev4, files0, ech4, some dir0, .raised "pyfastaq filter failed"⟩
                | none =>
                  runFromMerge opts w outdirAbs dir0 files0 ech3 ev3
                    original_assembly_renamed filtered_reads
              else ⟨ev3, files0, ech3, some dir0, .raised "assemble failed"⟩
            else ⟨ev2, files0, ech2, some dir0, .raised "bam2reads failed"⟩
          else ⟨ev1, files0, ech1, some dir0, .raised "mapreads failed"⟩
        else ⟨ev0, files0, ech0, some dir0, .raised "to_fasta failed"⟩
    else ⟨[], [], ech0, none, .raised "check_files_exist: missing input file"⟩
  else ⟨[], [], ech0, none, .raised "get_all_versions failed"⟩

/-- Python `s.endswith(suf)`. -/
def endsWithStr (suf s : String) : Bool :=
  suf.data.isSuffixOf s.data

/-- True when the outcome is an uncaught exception (which the interpreter
turns into a non-zero process exit). -/
def Outcome.isRaised : Outcome → Bool
  | .exited _ => false
  | .raised _ => true

/-- All collaborator calls up to and including the merge stage succeed, so
the run reaches the CLASSIFY step. -/
def ReachesClassify (w : World) : Prop :=
  w.versionsOk = true ∧ w.inputFilesExist = true ∧ w.toFastaOk = true ∧
  w.mapreadsOk = true ∧ w.bam2readsOk = true ∧ w.assembleOk = true ∧
  w.filterOk = true ∧ w.mergeOk = true

/-- Every collaborator call succeeds. -/
def RunCompletes (w : World) : Prop :=
  ReachesClassify w ∧ w.cleanOk = true ∧ w.fixstartOk = true

/-- The collaborator invocations of a run in which every stage succeeds,
spelled out (the merge reference depends on whether `--b2r_only_contigs`
was supplied). -/
def completedEvents (opts : Options) (w : World) : List Event :=
  [Event.to_fasta (abspath w.cwd0 opts.assembly) "00.input_assembly.fasta",
   Event.mapreads "00.input_assembly.fasta" (abspath w.cwd0 opts.reads) "01.mapreads.bam",
   Event.bam2reads "01.mapreads.bam" "02.bam2reads" opts.assemble_not_only_assembler
     (opts.b2r_only_contigs.map (abspath w.cwd0)),
   Event.assemble
     ("02.bam2reads" ++ (if opts.assemble_not_only_assembler then ".fastq" else ".fasta"))
     "03.assemble" (!opts.assemble_not_only_assembler)]
  ++ (match opts.b2r_only_contigs.map (abspath w.cwd0) with
      | some idsAbs =>
          [Event.filter_assembly "00.input_assembly.fasta"
            "04.merge.00.filtered_assembly.fa" idsAbs]
      | none => [])
  ++ [Event.merge
        (if opts.b2r_only_contigs.isSome then "04.merge.00.filtered_assembly.fa"
         else "00.input_assembly.fasta")
        "03.assemble" "04.merge"
        (if opts.no_pair_merge then none
         else some ("02.bam2reads" ++
           (if opts.assemble_not_only_assembler then ".fastq" else ".fasta"))),
      Event.clean "04.merge.fasta" "05.clean" "05.clean.contigs_to_keep",
      Event.fixstart "05.clean.fasta" "06.fixstart" "06.fixstart.contigs_to_not_change"
        (opts.genes_fa.map (abspath w.cwd0))]

/-- The files the controller writes during a run in which every stage
succeeds, with `(keep, nfs)` the classification result. -/
def completedFiles (opts : Options) (w : World) (keep nfs : List String) :
    List (String × String) :=
  [(joinPath (abspath w.cwd0 opts.outdir) "00.info.txt", "<invocation and tool versions>"),
   (joinPath (abspath w.cwd0 opts.outdir) "05.clean.contigs_to_keep", list_file_content keep),
   (joinPath (abspath w.cwd0 opts.outdir) "06.fixstart.contigs_to_not_change",
     list_file_content nfs),
   (joinPath (abspath w.cwd0 opts.outdir) "06.fixstart.ALL_FINISHED", "")]

/-- What a run in which every stage succeeds echoes: nothing without
`--verbose`, otherwise the stage banners followed by the three summary
counts. -/
def completedEchoed (opts : Options) (w : World) (keep : List String) : List String :=
  if opts.verbose then
    [center79 " Checking external programs ", center79 " Running mapreads ",
     center79 " Running bam2reads ", center79 " Running assemble "]
    ++ (if opts.b2r_only_contigs.isSome
        then [center79 " --b2r_only_contigs used - filering contigs "] else [])
    ++ [center79 " Running merge ", center79 " Running clean ",
        center79 " Running fixstart ", center79 " Summary ",
        "Number of input contigs: " ++ toString w.countInput,
        "Number of contigs after merging: " ++ toString w.countFinal,
        String.intercalate " "
          ["Circularized", toString keep.length, "of", toString w.countFinal, "contig(s)"]]
  else []

/-- Modelled from the spec: the Merger (`circlator/merge.py`, not under
`src/`) writes "one tab-delimited log line per contig" surviving the merge
stage, so the logged names are pairwise distinct and each names a contig of
the merged assembly. -/
def mergeLogConsistent (ls : List String) (mergedContigs : List String) : Prop :=
  (dataNames ls).Nodup ∧ ∀ n ∈ dataNames ls, n ∈ mergedContigs

/-- Modelled from the spec: the Cleaner (`circlator/clean.py`, not under
`src/`) only discards contigs, and "Contigs in `keep` are exempt from
length/coverage-based removal regardless of other criteria", so its output
is a sublist of its input containing every kept contig of the input. -/
def cleanerRespectsKeep (inContigs keep outContigs : List String) : Prop :=
  outContigs.Sublist inContigs ∧ ∀ n ∈ keep, n ∈ inContigs → n ∈ outContigs

/-- Modelled from the spec: the StartFixer (`circlator/start_fixer.py`, not
under `src/`) only rotates circular sequences to a canonical start; the
contig set itself is unchanged. -/
def startFixerKeepsContigs (inContigs outContigs : List String) : Prop :=
  outContigs = inContigs

/-- A well-formed sample log: the header, one circularised contig, one
non-circularised contig. -/
def sampleLog : List String :=
  ["[merge circularised]\t#Contig\trepetitive_deleted\tcircl_using_nucmer\tcircl_using_spades\tcircularised",
   "[merge circularised]\tctg1\t0\t1\t0\t1",
   "[merge circularised]\tctg2\t0\t0\t0\t0"]

/-- A log in which the same contig name appears on two data lines with
conflicting circularised flags. -/
def sampleLogDup : List String :=
  ["[merge circularised]\tctg1\t0\t1\t0\t1",
   "[merge circularised]\tctg1\t0\t0\t0\t0"]

/-- A log whose only line is a header with the last column's case wrong: a
header mismatch, tagged and tab-splitting into six fields. -/
def sampleLogHdrVar : List String :=
  ["[merge circularised]\t#Contig\trepetitive_deleted\tcircl_using_nucmer\tcircl_using_spades\tCircularised"]

/-- A well-formed sample log in which no contig circularised. -/
def sampleLogNC : List String :=
  ["[merge circularised]\t#Contig\trepetitive_deleted\tcircl_using_nucmer\tcircl_using_spades\tcircularised",
   "[merge circularised]\tctg1\t0\t0\t0\t0",
   "[merge circularised]\tctg2\t0\t0\t0\t0"]

/-- Baseline concrete options: not forced, quiet, unchanged code 42, SPAdes
in assembler-only mode, pair merging on, no contig allow-list, no custom
gene file, relative input paths. -/
def optsA : Options :=
  { force := false, verbose := false, unchanged_code := 42,
    assemble_not_only_assembler := false, no_pair_merge := false,
    b2r_only_contigs := none, genes_fa := none,
    assembly := "asm.fasta", reads := "reads.fq", outdir := "outdir" }

/-- Options with a contig allow-list, a custom gene file, verbose echoing
and the not-only-assembler switch set. -/
def optsB : Options :=
  { optsA with
    verbose := true, assemble_not_only_assembler := true,
    b2r_only_contigs := some "ids.txt", genes_fa := some "genes.fa" }

/-- Baseline concrete world: absolute initial working directory, fresh
output directory, all collaborators succeed, the Merger leaves `sampleLog`,
both assemblies have two sequences. -/
def worldA : World :=
  { cwd0 := "/home/user", outdirPre := none, versionsOk := true,
    inputFilesExist := true, toFastaOk := true, mapreadsOk := true,
    bam2readsOk := true, assembleOk := true, filterOk := true,
    mergeOk := true, cleanOk := true, fixstartOk := true,
    mergeLog := some sampleLog, countInput := 2, countFinal := 2 }

/-- A world identical to `worldA` except that nothing circularised: the
run changes nothing detectable. -/
def worldU : World := { worldA with mergeLog := some sampleLogNC }

/-- A world identical to `worldA` except that the output directory already
exists and holds a stale file. -/
def worldE : World := { worldA with outdirPre := some ["stale.txt"] }


/-- INIT can only hand the stages a fresh, empty output directory. -/
theorem initOutdir_ok {o : Option (List String)} {f : Bool} {d : List String}
    (h : initOutdir o f = .ok d) : d = [] := by
  cases o <;> cases f <;> simp_all [initOutdir]

/-- When the classification loop finishes without raising, its two lists
are exactly `keepOf` and `nfOf` of the log. -/
theorem classify_ok_eq : ∀ (ls k nf : List String),
    classifyLines ls = .ok (k, nf) → k = keepOf ls ∧ nf = nfOf ls := by
  intro ls
  induction ls with
  | nil =>
    intro k nf h
    simp only [classifyLines, Except.ok.injEq, Prod.mk.injEq] at h
    simp [keepOf, nfOf, ← h.1, ← h.2]
  | cons line rest ih =>
    intro k nf h
    by_cases htag : hasMergeTag line = true
    · by_cases hh : rstrip line = mergeLogHeader
      · simp only [classifyLines, keepOf, nfOf, htag, hh] at h ⊢
        simp at h ⊢
        exact ih _ _ h
      · cases hms : matchSix (tabSplit (rstrip line)) with
        | none => simp [classifyLines, htag, hh, hms] at h
        | some pr =>
          obtain ⟨name, c⟩ := pr
          cases hrest : classifyLines rest with
          | error e => simp [classifyLines, htag, hh, hms, hrest] at h
          | ok p =>
            obtain ⟨k', nf'⟩ := p
            obtain ⟨e1, e2⟩ := ih _ _ hrest
            by_cases hc : c = "1"
            · simp only [classifyLines, htag, hh, hms, hrest, hc] at h
              simp at h
              simp [keepOf, nfOf, htag, hh, hms, hc, ← h.1, ← h.2, e1, e2]
            · simp only [classifyLines, htag, hh, hms, hrest, hc] at h
              simp [hc] at h
              simp [keepOf, nfOf, htag, hh, hms, hc, ← h.1, ← h.2, e1, e2]
    · simp only [classifyLines, keepOf, nfOf, htag] at h ⊢
      simp at h ⊢
      exact ih _ _ h

/-- Each name's occurrences on the data lines are split between the two
classification lists. -/
theorem keep_nf_count (ls : List String) (n : String) :
    (keepOf ls).count n + (nfOf ls).count n = (dataNames ls).count n := by
  induction ls with
  | nil => simp [keepOf, nfOf, dataNames]
  | cons line rest ih =>
    by_cases htag : hasMergeTag line = true
    · by_cases hh : rstrip line = mergeLogHeader
      · simp [keepOf, nfOf, dataNames, htag, hh, ih]
      · cases hms : matchSix (tabSplit (rstrip line)) with
        | none => simp [keepOf, nfOf, dataNames, htag, hh, hms, ih]
        | some pr =>
          obtain ⟨name, c⟩ := pr
          by_cases hc : c = "1"
          · simp only [keepOf, nfOf, dataNames, htag, hh, hms, hc] at *
            simp [List.count_cons, ← ih]
            by_cases hn : name = n
            · simp [hn]
              try omega
            · simp [hn]
              try omega
          · simp only [keepOf, nfOf, dataNames, htag, hh, hms, hc] at *
            simp [List.count_cons, ← ih, hc]
            by_cases hn : name = n
            · simp [hn]
              try omega
            · simp [hn]
              try omega
    · simp [keepOf, nfOf, dataNames, htag, ih]

/-- Prepending a line can only extend `keepOf`. -/
theorem keepOf_cons_mem (hd : String) (tl : List String) (a : String)
    (ha : a ∈ keepOf tl) : a ∈ keepOf (hd :: tl) := by
  by_cases htag : hasMergeTag hd = true
  · by_cases hh : rstrip hd = mergeLogHeader
    · simpa [keepOf, htag, hh] using ha
    · cases hms : matchSix (tabSplit (rstrip hd)) with
      | none => simpa [keepOf, htag, hh, hms] using ha
      | some pr =>
        obtain ⟨name, c⟩ := pr
        by_cases hc : c = "1" <;> simp [keepOf, htag, hh, hms, hc, ha]
  · simpa [keepOf, htag] using ha

/-- Prepending a line can only extend `nfOf`. -/
theorem nfOf_cons_mem (hd : String) (tl : List String) (a : String)
    (ha : a ∈ nfOf tl) : a ∈ nfOf (hd :: tl) := by
  by_cases htag : hasMergeTag hd = true
  · by_cases hh : rstrip hd = mergeLogHeader
    · simpa [nfOf, htag, hh] using ha
    · cases hms : matchSix (tabSplit (rstrip hd)) with
      | none => simpa [nfOf, htag, hh, hms] using ha
      | some pr =>
        obtain ⟨name, c⟩ := pr
        by_cases hc : c = "1" <;> simp [nfOf, htag, hh, hms, hc, ha]
  · simpa [nfOf, htag] using ha

/-- A data record line sends its contig name into `keepOf` when its sixth
field is `"1"` and into `nfOf` otherwise. -/
theorem record_line_mem (ls : List String) (line : String) (hmem : line ∈ ls)
    (htag : hasMergeTag line = true) (hh : ¬ rstrip line = mergeLogHeader)
    (name c : String) (hms : matchSix (tabSplit (rstrip line)) = some (name, c)) :
    (c = "1" → name ∈ keepOf ls) ∧ (¬ c = "1" → name ∈ nfOf ls) := by
  induction ls with
  | nil => cases hmem
  | cons hd tl ih =>
    rcases List.mem_cons.mp hmem with rfl | hmem'
    · constructor <;> intro hc <;> simp [keepOf, nfOf, htag, hh, hms, hc]
    · obtain ⟨h1, h2⟩ := ih hmem'
      exact ⟨fun hc => keepOf_cons_mem _ _ _ (h1 hc),
             fun hc => nfOf_cons_mem _ _ _ (h2 hc)⟩

/-- One bad line anywhere makes the whole classification raise. -/
theorem classify_bad_line (ls : List String) (line : String) (hmem : line ∈ ls)
    (hbad : isBadLine line = true) : (classifyLines ls).isOk = false := by
  induction ls with
  | nil => cases hmem
  | cons hd tl ih =>
    rcases List.mem_cons.mp hmem with rfl | hmem'
    · simp only [isBadLine, isRecordLine, Bool.and_eq_true, decide_eq_true_eq,
        Option.isNone_iff_eq_none] at hbad
      obtain ⟨⟨htag, hh⟩, hnone⟩ := hbad
      simp [classifyLines, htag, hh, hnone, Except.isOk, Except.toBool]
    · by_cases htag : hasMergeTag hd = true
      · by_cases hh : rstrip hd = mergeLogHeader
        · simpa [classifyLines, htag, hh] using ih hmem'
        · cases hms : matchSix (tabSplit (rstrip hd)) with
          | none => simp [classifyLines, htag, hh, hms, Except.isOk, Except.toBool]
          | some pr =>
            obtain ⟨name, c⟩ := pr
            have htl := ih hmem'
            cases hrest : classifyLines tl with
            | error e => simp [classifyLines, htag, hh, hms, hrest, Except.isOk, Except.toBool]
            | ok p =>
              rw [hrest] at htl
              simp [Except.isOk, Except.toBool] at htl
      · simpa [classifyLines, htag] using ih hmem'

/-- Resolving any path against an absolute working directory yields an
absolute path. -/
theorem abspath_absolute (cwd p : String) (h : isAbsolutePath cwd = true) :
    isAbsolutePath (abspath cwd p) = true := by
  unfold abspath
  split
  · next hp => exact hp
  · unfold isAbsolutePath at h ⊢
    cases hc : cwd.data with
    | nil => rw [hc] at h; simp at h
    | cons a as =>
      rw [hc] at h
      simp only [String.data_append, hc, List.cons_append]
      exact h

/-- A name with no leading slash stays inside the directory it is joined
to; in particular `joinPath` output is determined by its parts. -/
theorem joinPath_absolute (dir name : String) (h : isAbsolutePath dir = true) :
    isAbsolutePath (joinPath dir name) = true := by
  unfold joinPath
  unfold isAbsolutePath at h ⊢
  cases hc : dir.data with
  | nil => rw [hc] at h; simp at h
  | cons a as =>
    rw [hc] at h
    simp only [String.data_append, hc, List.cons_append]
    exact h

/-- A run in which every collaborator succeeds and the log classifies
cleanly produces exactly the completed trace. -/
theorem run_completed (opts : Options) (w : World) (keep nfs : List String)
    (hw : RunCompletes w)
    (hinit : initOutdir w.outdirPre opts.force = .ok [])
    (hcls : classifyStep w.mergeLog = .ok (keep, nfs)) :
    run opts w =
      { events := completedEvents opts w,
        files := completedFiles opts w keep nfs,
        echoed := completedEchoed opts w keep,
        dirStart := some [],
        outcome := .exited (if w.countInput = w.countFinal ∧ keep.length = 0
                            then opts.unchanged_code else 0) } := by
  obtain ⟨⟨hv, hfe, htf, hmap, hbam, hasm, hfil, hmer⟩, hcln, hfix⟩ := hw
  cases hb : opts.b2r_only_contigs <;> cases hvb : opts.verbose <;>
    simp [run, runFromMerge, completedEvents, completedFiles, completedEchoed,
          hv, hfe, htf, hmap, hbam, hasm, hfil, hmer, hcln, hfix, hinit, hcls,
          hb, hvb, print_message]

/-- C1: in a run in which all stages complete, if the sequence count of the
normalized input assembly equals that of the final fixstart assembly and no
contig was classified as circularized, the process exits with the
caller-configured unchanged code; in every other completed run it exits
with the default success code 0 (source lines 293-294). -/
theorem exit_code_contract (opts : Options) (w : World) (keep nfs : List String)
    (hw : RunCompletes w)
    (hinit : initOutdir w.outdirPre opts.force = .ok [])
    (hcls : classifyStep w.mergeLog = .ok (keep, nfs)) :
    ((w.countInput = w.countFinal ∧ keep.length = 0) →
      (run opts w).outcome = .exited opts.unchanged_code) ∧
    (¬ (w.countInput = w.countFinal ∧ keep.length = 0) →
      (run opts w).outcome = .exited 0) := by
  rw [run_completed opts w keep nfs hw hinit hcls]
  exact ⟨fun h => by rw [if_pos h], fun h => by rw [if_neg h]⟩

/-- C1 witness: a completed run with equal counts and nothing circularized
exits with the configured unchanged code 42. -/
theorem exit_code_contract_witness :
    (run optsA worldU).outcome = .exited 42 :=
  (exit_code_contract optsA worldU [] ["ctg1", "ctg2"]
    ⟨⟨rfl, rfl, rfl, rfl, rfl, rfl, rfl, rfl⟩, rfl, rfl⟩ rfl rfl).1 (by decide)

/-- C2 counterexample: in a log where the same contig name appears on two
data lines with conflicting circularised flags, the contig ends up in both
derived sets, so the claim's "no contig appearing in the log ends up in
both sets" fails as stated. -/
theorem classification_partition_cex :
    classifyLines sampleLogDup = .ok (["ctg1"], ["ctg1"]) ∧
    "ctg1" ∈ keepOf sampleLogDup ∧ "ctg1" ∈ nfOf sampleLogDup := by
  refine ⟨rfl, ?_, ?_⟩ <;> decide

/-- C2 (amended): every contig named on a data line is in `keep` or in
`do-not-rotate`; a contig whose name appears on exactly one data line is in
exactly one of them; and each data line sends its name to `keep` exactly
when its sixth field is the literal `"1"`. -/
theorem classification_partition (ls keep nfs : List String)
    (hcl : classifyLines ls = .ok (keep, nfs)) :
    (∀ n, n ∈ dataNames ls ↔ (n ∈ keep ∨ n ∈ nfs)) ∧
    (∀ n, (dataNames ls).count n = 1 → ¬ (n ∈ keep ∧ n ∈ nfs)) ∧
    (∀ line name c, line ∈ ls → hasMergeTag line = true →
      ¬ rstrip line = mergeLogHeader →
      matchSix (tabSplit (rstrip line)) = some (name, c) →
      ((c = "1" → name ∈ keep) ∧ (¬ c = "1" → name ∈ nfs))) := by
  obtain ⟨hk, hn⟩ := classify_ok_eq ls keep nfs hcl
  subst hk; subst hn
  refine ⟨?_, ?_, ?_⟩
  · intro n
    have hc := keep_nf_count ls n
    constructor
    · intro hmem
      have h0 : 0 < (dataNames ls).count n := List.count_pos_iff.mpr hmem
      by_cases h1 : 0 < (keepOf ls).count n
      · exact Or.inl (List.count_pos_iff.mp h1)
      · exact Or.inr (List.count_pos_iff.mp (by omega))
    · rintro (h | h)
      · have := List.count_pos_iff.mpr h
        exact List.count_pos_iff.mp (by omega)
      · have := List.count_pos_iff.mpr h
        exact List.count_pos_iff.mp (by omega)
  · rintro n h1 ⟨hk1, hn1⟩
    have hkc := List.count_pos_iff.mpr hk1
    have hnc := List.count_pos_iff.mpr hn1
    have := keep_nf_count ls n
    omega
  · intro line name c hmem htag hh hms
    exact record_line_mem ls line hmem htag hh name c hms

/-- C2 witness: in the sample log, `ctg1` appears on exactly one data line
and is not in both sets. -/
theorem classification_partition_witness :
    ¬ ("ctg1" ∈ (["ctg1"] : List String) ∧ "ctg1" ∈ (["ctg2"] : List String)) :=
  (classification_partition sampleLog ["ctg1"] ["ctg2"] rfl).2.1 "ctg1" (by decide)

/-- C3 counterexample: a mismatched header (six tab-separated fields, last
column's case wrong) is not fatal: the classification step accepts it and
silently files `#Contig` under do-not-rotate, contradicting the claim that
a header mismatch aborts the run. -/
theorem classification_malformed_cex :
    classifyStep (some sampleLogHdrVar) = .ok ([], ["#Contig"]) := rfl

/-- C3 (amended): classification fails fatally when the log file is missing
or when some line carries the record tag, is not the exact header line, and
does not tab-split into exactly six fields; lines without the tag are
skipped, and tagged six-field lines other than the exact header are treated
as data lines rather than rejected. -/
theorem classification_malformed_fatal (log : Option (List String)) :
    (log = none → (classifyStep log).isOk = false) ∧
    (∀ ls line, log = some ls → line ∈ ls → isBadLine line = true →
      (classifyStep log).isOk = false) := by
  constructor
  · rintro rfl; rfl
  · rintro ls line rfl hmem hbad
    simpa [classifyStep] using classify_bad_line ls line hmem hbad

/-- C3 witness: a missing log is fatal. -/
theorem classification_malformed_fatal_witness :
    (classifyStep none).isOk = false :=
  (classification_malformed_fatal none).1 rfl

/-- C4: if the output directory already exists, force makes INIT hand the
stages a fresh empty directory (no pre-existing entry survives), while
without force the controller performs no stage work and aborts with a
raised precondition failure (source lines 97-107). -/
theorem outdir_precondition (opts : Options) (w : World) (pre : List String)
    (hex : w.outdirPre = some pre) :
    (opts.force = true → initOutdir w.outdirPre opts.force = .ok []) ∧
    (opts.force = false → (run opts w).events = [] ∧
      (run opts w).outcome.isRaised = true) := by
  constructor
  · intro hf; rw [hex, hf]; rfl
  · intro hf
    cases hv : w.versionsOk
    · simp [run, hv, Outcome.isRaised]
    · cases hfe : w.inputFilesExist
      · simp [run, hv, hfe, Outcome.isRaised]
      · simp [run, hv, hfe, hex, hf, initOutdir, Outcome.isRaised]

/-- C4 witness: with the output directory pre-existing and force unset, the
run performs no stage work and raises. -/
theorem outdir_precondition_witness :
    (run optsA worldE).events = [] ∧ (run optsA worldE).outcome.isRaised = true :=
  (outdir_precondition optsA worldE ["stale.txt"] rfl).2 rfl

/-- C5: every run that reaches the classification step creates both derived
contig-name list files, with newline-joined bodies, the body being empty
when the corresponding set is empty (source lines 241-249) — whether or not
the later clean/fixstart stages succeed. -/
theorem list_files_created (opts : Options) (w : World) (keep nfs : List String)
    (hw : ReachesClassify w)
    (hinit : initOutdir w.outdirPre opts.force = .ok [])
    (hcls : classifyStep w.mergeLog = .ok (keep, nfs)) :
    (joinPath (abspath w.cwd0 opts.outdir) "05.clean.contigs_to_keep",
      list_file_content keep) ∈ (run opts w).files ∧
    (joinPath (abspath w.cwd0 opts.outdir) "06.fixstart.contigs_to_not_change",
      list_file_content nfs) ∈ (run opts w).files ∧
    list_file_content ([] : List String) = "" := by
  obtain ⟨hv, hfe, htf, hmap, hbam, hasm, hfil, hmer⟩ := hw
  refine ⟨?_, ?_, rfl⟩ <;>
  · cases hb : opts.b2r_only_contigs <;> cases hcln : w.cleanOk <;>
      cases hfix : w.fixstartOk <;>
      simp [run, runFromMerge, hv, hfe, htf, hmap, hbam, hasm, hfil, hmer,
            hinit, hcls, hb, hcln, hfix]

/-- C5 witness: the keep list file, with `ctg1` as its newline-terminated
body, is created by the baseline completed run. -/
theorem list_files_created_witness :
    (joinPath (abspath "/home/user" "outdir") "05.clean.contigs_to_keep",
      list_file_content ["ctg1"]) ∈ (run optsA worldA).files :=
  (list_files_created optsA worldA ["ctg1"] ["ctg2"]
    ⟨rfl, rfl, rfl, rfl, rfl, rfl, rfl, rfl⟩ rfl rfl).1

/-- C6 counterexample: this run completes without `--verbose` and echoes
nothing at all — the three summary counts are written nowhere (the trace
below lists every file body and every echoed line) — refuting the claim
that the counts are written regardless of the verbosity setting; only the
sentinel write is unconditional. -/
theorem summary_verbosity_cex :
    run optsA worldA =
      { events :=
          [Event.to_fasta "/home/user/asm.fasta" "00.input_assembly.fasta",
           Event.mapreads "00.input_assembly.fasta" "/home/user/reads.fq" "01.mapreads.bam",
           Event.bam2reads "01.mapreads.bam" "02.bam2reads" false none,
           Event.assemble "02.bam2reads.fasta" "03.assemble" true,
           Event.merge "00.input_assembly.fasta" "03.assemble" "04.merge"
             (some "02.bam2reads.fasta"),
           Event.clean "04.merge.fasta" "05.clean" "05.clean.contigs_to_keep",
           Event.fixstart "05.clean.fasta" "06.fixstart" "06.fixstart.contigs_to_not_change"
             none],
        files :=
          [("/home/user/outdir/00.info.txt", "<invocation and tool versions>"),
           ("/home/user/outdir/05.clean.contigs_to_keep", "ctg1\n"),
           ("/home/user/outdir/06.fixstart.contigs_to_not_change", "ctg2\n"),
           ("/home/user/outdir/06.fixstart.ALL_FINISHED", "")],
        echoed := [],
        dirStart := some [],
        outcome := .exited 0 } := rfl

/-- C6 (amended): at the end of every completed run the zero-byte sentinel
is the last file written regardless of verbosity, while the three summary
counts are computed but echoed only under `--verbose` (where they are the
last three lines echoed); without `--verbose` nothing is echoed. -/
theorem summary_and_sentinel (opts : Options) (w : World) (keep nfs : List String)
    (hw : RunCompletes w)
    (hinit : initOutdir w.outdirPre opts.force = .ok [])
    (hcls : classifyStep w.mergeLog = .ok (keep, nfs)) :
    (run opts w).files.getLast? =
      some (joinPath (abspath w.cwd0 opts.outdir) "06.fixstart.ALL_FINISHED", "") ∧
    (opts.verbose = false → (run opts w).echoed = []) ∧
    (opts.verbose = true → (run opts w).echoed.reverse.take 3 =
      [String.intercalate " " ["Circularized", toString keep.length, "of",
         toString w.countFinal, "contig(s)"],
       "Number of contigs after merging: " ++ toString w.countFinal,
       "Number of input contigs: " ++ toString w.countInput]) := by
  rw [run_completed opts w keep nfs hw hinit hcls]
  refine ⟨rfl, ?_, ?_⟩
  · intro hvb; simp [completedEchoed, hvb]
  · intro hvb
    cases hb : opts.b2r_only_contigs <;> simp [completedEchoed, hvb, hb]

/-- C6 witness: the sentinel is the last file written by a completed
verbose run with an allow-list. -/
theorem summary_and_sentinel_witness :
    (run optsB worldA).files.getLast? =
      some (joinPath (abspath "/home/user" "outdir") "06.fixstart.ALL_FINISHED", "") :=
  (summary_and_sentinel optsB worldA ["ctg1"] ["ctg2"]
    ⟨⟨rfl, rfl, rfl, rfl, rfl, rfl, rfl, rfl⟩, rfl, rfl⟩ rfl rfl).1

/-- C7: the merge stage's reference is the filtered subset of the
normalized assembly exactly when a contig allow-list is supplied, and the
full normalized assembly otherwise; mapping always uses the full normalized
assembly as reference and read filtering always consumes the alignment
against it (source lines 137-144, 149-160, 182-198). -/
theorem merge_reference (opts : Options) (w : World) (keep nfs : List String)
    (hw : RunCompletes w)
    (hinit : initOutdir w.outdirPre opts.force = .ok [])
    (hcls : classifyStep w.mergeLog = .ok (keep, nfs)) :
    Event.mapreads "00.input_assembly.fasta" (abspath w.cwd0 opts.reads) "01.mapreads.bam"
      ∈ (run opts w).events ∧
    Event.bam2reads "01.mapreads.bam" "02.bam2reads" opts.assemble_not_only_assembler
      (opts.b2r_only_contigs.map (abspath w.cwd0)) ∈ (run opts w).events ∧
    Event.merge
      (if opts.b2r_only_contigs.isSome then "04.merge.00.filtered_assembly.fa"
       else "00.input_assembly.fasta") "03.assemble" "04.merge"
      (if opts.no_pair_merge then none
       else some ("02.bam2reads" ++
         (if opts.assemble_not_only_assembler then ".fastq" else ".fasta")))
      ∈ (run opts w).events ∧
    (∀ c, opts.b2r_only_contigs = some c →
      Event.filter_assembly "00.input_assembly.fasta" "04.merge.00.filtered_assembly.fa"
        (abspath w.cwd0 c) ∈ (run opts w).events) ∧
    (opts.b2r_only_contigs = none →
      ∀ a b i, Event.filter_assembly a b i ∉ (run opts w).events) := by
  rw [run_completed opts w keep nfs hw hinit hcls]
  refine ⟨?_, ?_, ?_, ?_, ?_⟩
  · cases hb : opts.b2r_only_contigs <;> simp [completedEvents, hb]
  · cases hb : opts.b2r_only_contigs <;> simp [completedEvents, hb]
  · cases hb : opts.b2r_only_contigs <;> simp [completedEvents, hb]
  · intro c hb; simp [completedEvents, hb]
  · intro hb a b i; simp [completedEvents, hb]

/-- C7 witness: with the allow-list of `optsB`, merge receives the filtered
assembly while mapping used the full one. -/
theorem merge_reference_witness :
    Event.merge "04.merge.00.filtered_assembly.fa" "03.assemble" "04.merge"
      (some "02.bam2reads.fastq") ∈ (run optsB worldA).events :=
  (merge_reference optsB worldA ["ctg1"] ["ctg2"]
    ⟨⟨rfl, rfl, rfl, rfl, rfl, rfl, rfl, rfl⟩, rfl, rfl⟩ rfl rfl).2.2.1

/-- C8: the read filter emits FASTQ exactly when the
`assemble_not_only_assembler` switch is set (and FASTA otherwise), its
`fastq_out` setting is that switch, the artifact's extension agrees, and
the assembler's only-assembler mode is the switch's negation (source lines
115-118, 149-160, 165-178). -/
theorem filtered_reads_format (opts : Options) (w : World) (keep nfs : List String)
    (hw : RunCompletes w)
    (hinit : initOutdir w.outdirPre opts.force = .ok [])
    (hcls : classifyStep w.mergeLog = .ok (keep, nfs)) :
    Event.bam2reads "01.mapreads.bam" "02.bam2reads" opts.assemble_not_only_assembler
      (opts.b2r_only_contigs.map (abspath w.cwd0)) ∈ (run opts w).events ∧
    Event.assemble
      ("02.bam2reads" ++ (if opts.assemble_not_only_assembler then ".fastq" else ".fasta"))
      "03.assemble" (!opts.assemble_not_only_assembler) ∈ (run opts w).events ∧
    endsWithStr ".fastq"
      ("02.bam2reads" ++ (if opts.assemble_not_only_assembler then ".fastq" else ".fasta"))
      = opts.assemble_not_only_assembler ∧
    endsWithStr ".fasta"
      ("02.bam2reads" ++ (if opts.assemble_not_only_assembler then ".fastq" else ".fasta"))
      = !opts.assemble_not_only_assembler := by
  rw [run_completed opts w keep nfs hw hinit hcls]
  refine ⟨?_, ?_, ?_, ?_⟩
  · cases hb : opts.b2r_only_contigs <;> simp [completedEvents, hb]
  · cases hb : opts.b2r_only_contigs <;> simp [completedEvents, hb]
  · cases hf : opts.assemble_not_only_assembler <;> simp [hf] <;> decide
  · cases hf : opts.assemble_not_only_assembler <;> simp [hf] <;> decide

/-- C8 witness: with the switch set, the assembler consumes a `.fastq`
artifact and runs with only-assembler off. -/
theorem filtered_reads_format_witness :
    Event.assemble "02.bam2reads.fastq" "03.assemble" false ∈ (run optsB worldA).events :=
  (filtered_reads_format optsB worldA ["ctg1"] ["ctg2"]
    ⟨⟨rfl, rfl, rfl, rfl, rfl, rfl, rfl, rfl⟩, rfl, rfl⟩ rfl rfl).2.1

/-- C9: the circularized count is at most the final contig count, given the
spec-level contracts of the collaborators outside `src/`: the Merger logs
one record per surviving contig of the merged assembly, the Cleaner only
discards contigs and never a kept one, and the StartFixer preserves the
contig set. -/
theorem circularized_le_final (ls keep nfs merged cleaned final : List String)
    (hcl : classifyLines ls = .ok (keep, nfs))
    (hlog : mergeLogConsistent ls merged)
    (hclean : cleanerRespectsKeep merged keep cleaned)
    (hfix : startFixerKeepsContigs cleaned final) :
    keep.length ≤ final.length := by
  obtain ⟨hk, -⟩ := classify_ok_eq ls keep nfs hcl
  subst hk
  obtain ⟨hnd, hsub⟩ := hlog
  obtain ⟨-, hkeep⟩ := hclean
  have hfix' : final = cleaned := hfix
  have hcount : ∀ n, (keepOf ls).count n ≤ (dataNames ls).count n := by
    intro n; have := keep_nf_count ls n; omega
  have hndk : (keepOf ls).Nodup := by
    rw [List.nodup_iff_count_le_one] at hnd ⊢
    intro a; exact le_trans (hcount a) (hnd a)
  have hks : keepOf ls ⊆ final := by
    intro a ha
    have h1 : 0 < (keepOf ls).count a := List.count_pos_iff.mpr ha
    have hdn : a ∈ dataNames ls := List.count_pos_iff.mp (by have := hcount a; omega)
    have hc : a ∈ cleaned := hkeep a ha (hsub a hdn)
    rw [hfix']
    exact hc
  exact (List.subperm_of_subset hndk hks).length_le

/-- C9 witness: one circularized contig against a two-contig final
assembly. -/
theorem circularized_le_final_witness :
    List.length ["ctg1"] ≤ List.length ["ctg1", "ctg2"] :=
  circularized_le_final sampleLog ["ctg1"] ["ctg2"] ["ctg1", "ctg2"]
    ["ctg1", "ctg2"] ["ctg1", "ctg2"] rfl ⟨by decide, by decide⟩
    ⟨by decide, by decide⟩ rfl

/-- C10: the user-supplied assembly, reads, allow-list and gene-file paths
are resolved against the initial working directory (hence absolute when it
is) before the chdir into the output directory, and every file the
controller writes sits under the output directory via a relative artifact
name (source lines 81-118). -/
theorem input_paths_resolved (opts : Options) (w : World) (keep nfs : List String)
    (hcwd : isAbsolutePath w.cwd0 = true)
    (hw : RunCompletes w)
    (hinit : initOutdir w.outdirPre opts.force = .ok [])
    (hcls : classifyStep w.mergeLog = .ok (keep, nfs)) :
    (Event.to_fasta (abspath w.cwd0 opts.assembly) "00.input_assembly.fasta"
        ∈ (run opts w).events ∧
      isAbsolutePath (abspath w.cwd0 opts.assembly) = true) ∧
    (Event.mapreads "00.input_assembly.fasta" (abspath w.cwd0 opts.reads) "01.mapreads.bam"
        ∈ (run opts w).events ∧
      isAbsolutePath (abspath w.cwd0 opts.reads) = true) ∧
    (∀ c, opts.b2r_only_contigs = some c →
      isAbsolutePath (abspath w.cwd0 c) = true) ∧
    (∀ g, opts.genes_fa = some g → isAbsolutePath (abspath w.cwd0 g) = true) ∧
    (∀ pc ∈ (run opts w).files,
      ∃ name, pc.1 = joinPath (abspath w.cwd0 opts.outdir) name ∧
        isAbsolutePath name = false) := by
  rw [run_completed opts w keep nfs hw hinit hcls]
  refine ⟨⟨?_, abspath_absolute _ _ hcwd⟩, ⟨?_, abspath_absolute _ _ hcwd⟩,
    fun c _ => abspath_absolute _ _ hcwd, fun g _ => abspath_absolute _ _ hcwd, ?_⟩
  · cases hb : opts.b2r_only_contigs <;> simp [completedEvents, hb]
  · cases hb : opts.b2r_only_contigs <;> simp [completedEvents, hb]
  · intro pc hpc
    simp only [completedFiles, List.mem_cons, List.not_mem_nil, or_false] at hpc
    rcases hpc with h | h | h | h <;> subst h
    · exact ⟨"00.info.txt", rfl, rfl⟩
    · exact ⟨"05.clean.contigs_to_keep", rfl, rfl⟩
    · exact ⟨"06.fixstart.contigs_to_not_change", rfl, rfl⟩
    · exact ⟨"06.fixstart.ALL_FINISHED", rfl, rfl⟩

/-- C10 witness: the relative assembly path of `optsA` reaches the
normalization call as an absolute path. -/
theorem input_paths_resolved_witness :
    Event.to_fasta "/home/user/asm.fasta" "00.input_assembly.fasta"
        ∈ (run optsA worldA).events ∧
    isAbsolutePath "/home/user/asm.fasta" = true :=
  (input_paths_resolved optsA worldA ["ctg1"] ["ctg2"] rfl
    ⟨⟨rfl, rfl, rfl, rfl, rfl, rfl, rfl, rfl⟩, rfl, rfl⟩ rfl rfl).1
